import Mathlib

/-!
Shallow embedding of `src/vice/src/c64/cart/shortbus_digimax.c` (VICE,
IDE64 DigiMAX short-bus DAC expansion) and proofs about its
activation / relocation state machine and its register dispatch.

The module state in C consists of the static variables
`shortbus_digimax_host_active`, `shortbus_digimax_expansion_active`,
`shortbus_digimax_address`, the mutable `start_address` / `end_address`
fields of the static `io_source_t digimax_device`, the registration
handle `shortbus_digimax_list_item`, and the shared
`digimax_sound_chip.chip_enabled` flag.  Bus claims and releases
(`io_source_register` / `io_source_unregister`) are modelled as an
explicit event trace so that ordering properties can be stated.
-/

/-- The data fields of the C `io_source_t` descriptor that this module
reads or writes (`start_address`, `end_address`, `address_mask`,
`io_source_valid`); the function pointers of the C struct are the
operations modelled below. -/
structure IoSource where
  name : String
  start_address : Nat
  end_address : Nat
  address_mask : Nat
  io_read_valid : Nat
  deriving DecidableEq, Repr

/-- Static initializer of `digimax_device` in the C file:
`0xde40, 0xde47, 0x03`, read always valid. -/
def digimax_device0 : IoSource :=
  { name := "ShortBus DigiMAX"
    start_address := 0xde40
    end_address := 0xde47
    address_mask := 0x03
    io_read_valid := 1 }

/-- A bus-level observable action: claiming or releasing an address
window `[lo, hi]` (the arguments `io_source_register` /
`io_source_unregister` act on). -/
inductive BusEvent where
  | claim (lo hi : Nat)
  | release (lo hi : Nat)
  deriving DecidableEq, Repr

/-- The mutable module state of `shortbus_digimax.c`.
`list_item = some w` models `shortbus_digimax_list_item != NULL`
holding a registration handle for window descriptor `w`;
`chip_enabled` models `digimax_sound_chip.chip_enabled` (0/1 in C). -/
structure DigimaxState where
  host_active : Bool
  expansion_active : Bool
  address : Int
  device : IoSource
  chip_enabled : Bool
  list_item : Option IoSource
  deriving DecidableEq, Repr

/-- The C translation unit's static state before any initialization
call: both flags 0, `shortbus_digimax_address` is an uninitialized
static `int` (hence 0), the descriptor holds its static initializer,
no handle, chip disabled (factory value 0 of the `SBDIGIMAX`
resource). -/
def initState : DigimaxState :=
  { host_active := false
    expansion_active := false
    address := 0
    device := digimax_device0
    chip_enabled := false
    list_item := none }

/-- Embeds `void shortbus_digimax_unregister(void)`: if the handle is live,
release it, clear it and disable the chip; in all cases clear
`host_active`. -/
def shortbus_digimax_unregister (s : DigimaxState) :
    DigimaxState × List BusEvent :=
  let (s1, evs) :=
    match s.list_item with
    | some w =>
        ({ s with list_item := none, chip_enabled := false },
         [BusEvent.release w.start_address w.end_address])
    | none => (s, [])
  ({ s1 with host_active := false }, evs)

/-- Embeds `void shortbus_digimax_register(void)`: if the chip is disabled and
the expansion is active, claim the descriptor's window and enable the
chip; in all cases set `host_active`. -/
def shortbus_digimax_register (s : DigimaxState) :
    DigimaxState × List BusEvent :=
  let (s1, evs) :=
    if !s.chip_enabled && s.expansion_active then
      ({ s with list_item := some s.device, chip_enabled := true },
       [BusEvent.claim s.device.start_address s.device.end_address])
    else (s, [])
  ({ s1 with host_active := true }, evs)

/-- Embeds `static int set_shortbus_digimax_enabled(int value, void *param)`:
normalize `value` to 0/1; when the host is active, reconcile the bus
registration with the requested value; finally record the requested
value in `expansion_active` and return 0. -/
def set_shortbus_digimax_enabled (value : Int) (s : DigimaxState) :
    Int × DigimaxState × List BusEvent :=
  let val : Bool := value != 0
  let (s1, evs) :=
    if s.host_active then
      if !s.chip_enabled && val then
        ({ s with list_item := some s.device, chip_enabled := true },
         [BusEvent.claim s.device.start_address s.device.end_address])
      else if s.chip_enabled && !val then
        match s.list_item with
        | some w =>
            ({ s with list_item := none, chip_enabled := false },
             [BusEvent.release w.start_address w.end_address])
        | none => ({ s with chip_enabled := false }, [])
      else (s, [])
    else (s, [])
  (0, { s1 with expansion_active := val }, evs)

/-- Embeds `static int set_shortbus_digimax_base(int val, void *param)`:
early-return 0 when the value equals the current address; otherwise,
if the chip was enabled, first run `set_shortbus_digimax_enabled(0)`;
then validate the address (`0xde40` / `0xde48`): on the default branch
return -1, otherwise update the descriptor window (with the `(WORD)`
casts of the C code), store the new address, and, if the chip had been
enabled, run `set_shortbus_digimax_enabled(1)`; return 0. -/
def set_shortbus_digimax_base (val : Int) (s : DigimaxState) :
    Int × DigimaxState × List BusEvent :=
  let addr := val
  let old := s.chip_enabled
  if val == s.address then (0, s, [])
  else
    let (s1, evs1) :=
      if old then
        let r := set_shortbus_digimax_enabled 0 s
        (r.2.1, r.2.2)
      else (s, [])
    if addr == 0xde40 || addr == 0xde48 then
      let s2 := { s1 with device :=
        { s1.device with
            start_address := (addr % 65536).toNat
            end_address := ((addr + 3) % 65536).toNat } }
      let s3 := { s2 with address := val }
      let (s4, evs2) :=
        if old then
          let r := set_shortbus_digimax_enabled 1 s3
          (r.2.1, r.2.2)
        else (s3, [])
      (0, s4, evs1 ++ evs2)
    else (-1, s1, evs1)

/-- Modelled from the spec: the configuration registry (the generic
resource framework is not part of this translation unit) applies the
factory defaults of the two registered resources through their set
functions at startup — `SBDIGIMAX = 0` and `SBDIGIMAXbase = 0xDE40`,
per the `resources_int` table of the C file. -/
def startupState : DigimaxState :=
  let r1 := set_shortbus_digimax_enabled 0 initState
  let r2 := set_shortbus_digimax_base 0xde40 r1.2.1
  r2.2.1

/-- The externally drivable operations of the module. -/
inductive Op where
  | hostRegister
  | hostUnregister
  | setEnabled (v : Int)
  | setBase (v : Int)
  deriving DecidableEq, Repr

/-- Dispatch one operation, discarding the `int` result of the setters
(kept by the setter definitions themselves). -/
def applyOp (op : Op) (s : DigimaxState) : DigimaxState × List BusEvent :=
  match op with
  | Op.hostRegister => shortbus_digimax_register s
  | Op.hostUnregister => shortbus_digimax_unregister s
  | Op.setEnabled v =>
      let r := set_shortbus_digimax_enabled v s
      (r.2.1, r.2.2)
  | Op.setBase v =>
      let r := set_shortbus_digimax_base v s
      (r.2.1, r.2.2)

/-- Run a sequence of operations, concatenating the bus-event traces. -/
def run (ops : List Op) (s : DigimaxState) : DigimaxState × List BusEvent :=
  match ops with
  | [] => (s, [])
  | op :: rest =>
      let r1 := applyOp op s
      let r2 := run rest r1.1
      (r2.1, r1.2 ++ r2.2)

/-- One when the registration handle is live, zero otherwise. -/
def claimBit (s : DigimaxState) : Nat :=
  if s.list_item.isSome then 1 else 0

/-- One step of the bus-occupancy automaton: a claim is legal only when
no window is held, a release only when one is. -/
def busStep (n : Nat) (e : BusEvent) : Option Nat :=
  match n, e with
  | 0, BusEvent.claim _ _ => some 1
  | 1, BusEvent.release _ _ => some 0
  | _, _ => none

/-- Fold `busStep` over a trace; `some m` means every prefix of the
trace kept the number of held windows in {0, 1} and it ends at `m`. -/
def busCount (n : Nat) : List BusEvent → Option Nat
  | [] => some n
  | e :: rest =>
      match busStep n e with
      | some m => busCount m rest
      | none => none

/-- The reachable-state invariant of the module: the handle is live iff
the chip is enabled, the chip is enabled iff both activation flags
hold, the address is legal, the descriptor window is `[address,
address+3]`, and a live handle was taken on the current descriptor. -/
def GoodState (s : DigimaxState) : Prop :=
  s.list_item.isSome = s.chip_enabled
  ∧ s.chip_enabled = (s.host_active && s.expansion_active)
  ∧ (s.address = 0xde40 ∨ s.address = 0xde48)
  ∧ s.device.start_address = s.address.toNat
  ∧ s.device.end_address = s.address.toNat + 3
  ∧ (s.list_item = none ∨ s.list_item = some s.device)

instance (s : DigimaxState) : Decidable (GoodState s) := by
  unfold GoodState; infer_instance

/- ------------------------------------------------------------------ -/
/- Register file and mixer bridge                                      -/
/- ------------------------------------------------------------------ -/

/-- Pointwise update of a function, used for the byte array
`digimax_sound_data` and for the echo-mixer store. -/
def updFn (f : Nat → Nat) (a v : Nat) : Nat → Nat :=
  fun x => if x = a then v else f x

/-- A call into the shared mixer service, recording the global address,
the value (for stores) and the device-instance context argument. -/
inductive MixerCall where
  | store (globalAddr value ctx : Nat)
  | read (globalAddr ctx : Nat)
  deriving DecidableEq, Repr

/-- The sound-side state visible to this module: the local
`digimax_sound_data` byte slots and the mixer's per-global-address
contents. -/
structure SoundState where
  digimax_sound_data : Nat → Nat
  mixer : Nat → Nat

/-- Modelled from the spec: `sound_store` of the mixer service
(`sound.c` is not part of this translation unit); the echo mixer keeps
the last value stored at each global address, and the context argument
is a device-instance discriminator with no effect on storage. -/
def sound_store (m : Nat → Nat) (addr value _ctx : Nat) : Nat → Nat :=
  updFn m addr value

/-- Modelled from the spec: `sound_read` of the mixer service
(`sound.c` is not part of this translation unit); returns what the
mixer currently reports for the global address. -/
def sound_read (m : Nat → Nat) (addr _ctx : Nat) : Nat :=
  m addr

/-- Embeds `static void shortbus_digimax_sound_store(WORD addr, BYTE value)`:
store the byte in `digimax_sound_data[addr]` and forward it to
`sound_store((WORD)(digimax_sound_chip_offset | addr), value, 0)`.
The `(WORD)` cast is the `% 65536` truncation. -/
def shortbus_digimax_sound_store (offset : Nat) (st : SoundState)
    (addr value : Nat) : SoundState × MixerCall :=
  ({ digimax_sound_data := updFn st.digimax_sound_data addr value
     mixer := sound_store st.mixer ((offset ||| addr) % 65536) value 0 },
   MixerCall.store ((offset ||| addr) % 65536) value 0)

/-- Embeds `static BYTE shortbus_digimax_sound_read(WORD addr)`: return
`sound_read((WORD)(digimax_sound_chip_offset | addr), 0)`. -/
def shortbus_digimax_sound_read (offset : Nat) (st : SoundState)
    (addr : Nat) : Nat × MixerCall :=
  (sound_read st.mixer ((offset ||| addr) % 65536) 0,
   MixerCall.read ((offset ||| addr) % 65536) 0)

/-- An all-zero sound state, used to instantiate universally
quantified statements at a concrete input. -/
def zeroSound : SoundState :=
  { digimax_sound_data := fun _ => 0, mixer := fun _ => 0 }

/- ------------------------------------------------------------------ -/
/- Helper lemmas                                                       -/
/- ------------------------------------------------------------------ -/

lemma lor_lt_65536 {x y : Nat} (hx : x < 65536) (hy : y < 65536) :
    x ||| y < 65536 := by
  have h : (65536 : Nat) = 2 ^ 16 := by norm_num
  rw [h] at hx hy ⊢
  exact Nat.bitwise_lt hx hy

lemma busCount_append (n : Nat) (l1 l2 : List BusEvent) :
    busCount n (l1 ++ l2) =
      (busCount n l1).bind (fun m => busCount m l2) := by
  induction l1 generalizing n with
  | nil => simp [busCount]
  | cons e rest ih =>
      simp only [List.cons_append, busCount]
      cases busStep n e with
      | none => simp
      | some m => simpa using ih m

lemma unregister_step (s : DigimaxState) (h : GoodState s) :
    GoodState (shortbus_digimax_unregister s).1
    ∧ busCount (claimBit s) (shortbus_digimax_unregister s).2
        = some (claimBit (shortbus_digimax_unregister s).1) := by
  obtain ⟨ha, he, ad, dev, hc, li⟩ := s
  unfold GoodState at h
  obtain ⟨h1, h2, h3, h4, h5, h6⟩ := h
  cases li <;> cases ha <;> cases he <;>
    simp_all [shortbus_digimax_unregister, GoodState, claimBit, busCount,
      busStep]

lemma register_step (s : DigimaxState) (h : GoodState s) :
    GoodState (shortbus_digimax_register s).1
    ∧ busCount (claimBit s) (shortbus_digimax_register s).2
        = some (claimBit (shortbus_digimax_register s).1) := by
  obtain ⟨ha, he, ad, dev, hc, li⟩ := s
  unfold GoodState at h
  obtain ⟨h1, h2, h3, h4, h5, h6⟩ := h
  cases li <;> cases ha <;> cases he <;>
    simp_all [shortbus_digimax_register, GoodState, claimBit, busCount,
      busStep]

lemma set_enabled_step (v : Int) (s : DigimaxState) (h : GoodState s) :
    GoodState (set_shortbus_digimax_enabled v s).2.1
    ∧ busCount (claimBit s) (set_shortbus_digimax_enabled v s).2.2
        = some (claimBit (set_shortbus_digimax_enabled v s).2.1) := by
  obtain ⟨ha, he, ad, dev, hc, li⟩ := s
  unfold GoodState at h
  obtain ⟨h1, h2, h3, h4, h5, h6⟩ := h
  cases hv : (v != 0) <;> cases li <;> cases ha <;> cases he <;>
    simp_all [set_shortbus_digimax_enabled, GoodState, claimBit, busCount,
      busStep]

lemma set_base_step (v : Int) (s : DigimaxState) (h : GoodState s) :
    GoodState (set_shortbus_digimax_base v s).2.1
    ∧ busCount (claimBit s) (set_shortbus_digimax_base v s).2.2
        = some (claimBit (set_shortbus_digimax_base v s).2.1) := by
  obtain ⟨ha, he, ad, dev, hc, li⟩ := s
  unfold GoodState at h
  obtain ⟨h1, h2, h3, h4, h5, h6⟩ := h
  cases hve : (v == ad) with
  | true =>
      simp_all [set_shortbus_digimax_base, GoodState, claimBit, busCount,
        busStep]
  | false =>
      cases hvalid : (v == (0xde40 : Int) || v == (0xde48 : Int)) with
      | true =>
          have hv40 : v = 0xde40 ∨ v = 0xde48 := by
            simpa using hvalid
          rcases hv40 with rfl | rfl <;>
            cases li <;> cases ha <;> cases he <;>
              simp_all [set_shortbus_digimax_base,
                set_shortbus_digimax_enabled, GoodState, claimBit, busCount,
                busStep]
      | false =>
          cases li <;> cases ha <;> cases he <;>
            simp_all [set_shortbus_digimax_base,
              set_shortbus_digimax_enabled, GoodState, claimBit, busCount,
              busStep]

lemma applyOp_step (op : Op) (s : DigimaxState) (h : GoodState s) :
    GoodState (applyOp op s).1
    ∧ busCount (claimBit s) (applyOp op s).2
        = some (claimBit (applyOp op s).1) := by
  cases op with
  | hostRegister => exact register_step s h
  | hostUnregister => exact unregister_step s h
  | setEnabled v => exact set_enabled_step v s h
  | setBase v => exact set_base_step v s h

lemma run_step (ops : List Op) (s : DigimaxState) (h : GoodState s) :
    GoodState (run ops s).1
    ∧ busCount (claimBit s) (run ops s).2
        = some (claimBit (run ops s).1) := by
  induction ops generalizing s with
  | nil => simpa [run, busCount] using h
  | cons op rest ih =>
      obtain ⟨hg1, hb1⟩ := applyOp_step op s h
      obtain ⟨hg2, hb2⟩ := ih (applyOp op s).1 hg1
      refine ⟨by simpa [run] using hg2, ?_⟩
      simp only [run, busCount_append, hb1, Option.bind_some]
      simpa using hb2

lemma startup_good : GoodState startupState := by decide

lemma unregister_handle (s : DigimaxState)
    (h : s.list_item.isSome = s.chip_enabled) :
    (shortbus_digimax_unregister s).1.list_item.isSome
      = (shortbus_digimax_unregister s).1.chip_enabled := by
  obtain ⟨ha, he, ad, dev, hc, li⟩ := s
  cases li <;> cases hc <;> simp_all [shortbus_digimax_unregister]

lemma register_handle (s : DigimaxState)
    (h : s.list_item.isSome = s.chip_enabled) :
    (shortbus_digimax_register s).1.list_item.isSome
      = (shortbus_digimax_register s).1.chip_enabled := by
  obtain ⟨ha, he, ad, dev, hc, li⟩ := s
  cases li <;> cases hc <;> cases he <;>
    simp_all [shortbus_digimax_register]

lemma enabled_handle (v : Int) (s : DigimaxState)
    (h : s.list_item.isSome = s.chip_enabled) :
    (set_shortbus_digimax_enabled v s).2.1.list_item.isSome
      = (set_shortbus_digimax_enabled v s).2.1.chip_enabled := by
  obtain ⟨ha, he, ad, dev, hc, li⟩ := s
  cases hv : (v != 0) <;> cases li <;> cases ha <;> cases hc <;>
    simp_all [set_shortbus_digimax_enabled]

lemma base_handle (v : Int) (s : DigimaxState)
    (h : s.list_item.isSome = s.chip_enabled) :
    (set_shortbus_digimax_base v s).2.1.list_item.isSome
      = (set_shortbus_digimax_base v s).2.1.chip_enabled := by
  obtain ⟨ha, he, ad, dev, hc, li⟩ := s
  cases hve : (v == ad) with
  | true => simp_all [set_shortbus_digimax_base]
  | false =>
      cases hvalid : (v == (0xde40 : Int) || v == (0xde48 : Int)) with
      | true =>
          have hv2 : v = 0xde40 ∨ v = 0xde48 := by simpa using hvalid
          rcases hv2 with rfl | rfl <;>
            cases li <;> cases ha <;> cases hc <;>
              simp_all [set_shortbus_digimax_base,
                set_shortbus_digimax_enabled]
      | false =>
          cases li <;> cases ha <;> cases hc <;>
            simp_all [set_shortbus_digimax_base,
              set_shortbus_digimax_enabled]

lemma applyOp_handle (op : Op) (s : DigimaxState)
    (h : s.list_item.isSome = s.chip_enabled) :
    (applyOp op s).1.list_item.isSome = (applyOp op s).1.chip_enabled := by
  cases op with
  | hostRegister => exact register_handle s h
  | hostUnregister => exact unregister_handle s h
  | setEnabled v => exact enabled_handle v s h
  | setBase v => exact base_handle v s h

/-- A concrete registered state: the host interface came up and the
expansion was enabled after startup. -/
def regState : DigimaxState :=
  (run [Op.hostRegister, Op.setEnabled 1] startupState).1

/- ------------------------------------------------------------------ -/
/- Claim theorems                                                      -/
/- ------------------------------------------------------------------ -/

/-- Claim C1 (divergence at the failing input): calling the
base-address setter with the illegal value 0xDE50 from a registered
state (host active, expansion active, chip enabled, handle live)
returns -1 as the claim says, but it does NOT leave the state
unchanged: the chip is disabled, `expansion_active` is cleared and the
registration handle is released before the validation rejects the
value.  The claim (and the spec's "no state mutated") describes the
clear intent; the code unregisters before validating. -/
theorem shortbus_digimax_base_invalid_while_registered_mutates :
    (set_shortbus_digimax_base 0xde50 regState).1 = -1
    ∧ regState.chip_enabled = true
    ∧ regState.expansion_active = true
    ∧ regState.host_active = true
    ∧ regState.list_item.isSome = true
    ∧ (set_shortbus_digimax_base 0xde50 regState).2.1.chip_enabled = false
    ∧ (set_shortbus_digimax_base 0xde50 regState).2.1.expansion_active
        = false
    ∧ (set_shortbus_digimax_base 0xde50 regState).2.1.list_item = none := by
  decide

/-- Claim C2: after any finite sequence of operations from the startup
state, the device is registered on the bus (its handle is live) iff
`hostActive && expansionActive` holds. -/
theorem shortbus_digimax_registered_iff_host_and_expansion
    (ops : List Op) :
    ((run ops startupState).1.list_item.isSome = true)
    ↔ ((run ops startupState).1.host_active = true
        ∧ (run ops startupState).1.expansion_active = true) := by
  obtain ⟨h1, h2, -, -, -, -⟩ := (run_step ops startupState startup_good).1
  rw [h1, h2, Bool.and_eq_true]

/-- Claim C3: in every reachable state the descriptor's window is
exactly the 4 consecutive addresses starting at the current base
address (window end = base + 3); in particular the startup state has
base 0xDE40. -/
theorem shortbus_digimax_window_tracks_base (ops : List Op) :
    startupState.address = 0xde40
    ∧ (run ops startupState).1.device.start_address
        = (run ops startupState).1.address.toNat
    ∧ (run ops startupState).1.device.end_address
        = (run ops startupState).1.address.toNat + 3 := by
  obtain ⟨-, -, -, h4, h5, -⟩ := (run_step ops startupState startup_good).1
  exact ⟨by decide, h4, h5⟩

/-- Claim C4: (a) over any operation sequence from startup, the bus
trace is accepted by the occupancy automaton that allows a claim only
when no window is held and a release only when one is — so at most one
window is ever claimed at a time, and the trace ends with a window
held iff the handle is live; (b) a base change 0xDE40 → 0xDE48 from a
registered good state succeeds and emits exactly the release of the
old window followed by the claim of [0xDE48, 0xDE4B] — release
strictly before claim, one net claim event. -/
theorem shortbus_digimax_single_window_release_before_claim :
    (∀ ops : List Op,
      busCount 0 (run ops startupState).2
        = some (claimBit (run ops startupState).1))
    ∧ (∀ s : DigimaxState, GoodState s → s.chip_enabled = true →
        s.address = 0xde40 →
        (set_shortbus_digimax_base 0xde48 s).1 = 0
        ∧ (set_shortbus_digimax_base 0xde48 s).2.2
            = [BusEvent.release 0xde40 0xde43,
               BusEvent.claim 0xde48 0xde4b]) := by
  constructor
  · intro ops
    have h := (run_step ops startupState startup_good).2
    have h0 : claimBit startupState = 0 := by decide
    rwa [h0] at h
  · intro s hg hc hadr
    obtain ⟨ha, he, ad, dev, hcf, li⟩ := s
    unfold GoodState at hg
    obtain ⟨h1, h2, h3, h4, h5, h6⟩ := hg
    simp only at hc hadr
    subst hc hadr
    cases li <;> cases ha <;> cases he <;>
      simp_all [set_shortbus_digimax_base, set_shortbus_digimax_enabled]

/-- Witness for claim C4: the concrete registered state `regState`
satisfies the hypotheses of part (b), and the base change 0xDE40 →
0xDE48 there emits exactly the release of [0xDE40, 0xDE43] followed by
the claim of [0xDE48, 0xDE4B]. -/
theorem shortbus_digimax_single_window_witness :
    GoodState regState
    ∧ regState.chip_enabled = true
    ∧ regState.address = 0xde40
    ∧ (set_shortbus_digimax_base 0xde48 regState).1 = 0
    ∧ (set_shortbus_digimax_base 0xde48 regState).2.2
        = [BusEvent.release 0xde40 0xde43,
           BusEvent.claim 0xde48 0xde4b] :=
  ⟨by decide, by decide, by decide,
   (shortbus_digimax_single_window_release_before_claim.2 regState
      (by decide) (by decide) (by decide)).1,
   (shortbus_digimax_single_window_release_before_claim.2 regState
      (by decide) (by decide) (by decide)).2⟩

/-- Claim C5: for every state, setting the base address to its current
value returns 0 and is a complete no-op — unchanged state and no bus
events. -/
theorem shortbus_digimax_base_same_value_noop (s : DigimaxState) :
    set_shortbus_digimax_base s.address s = (0, s, []) := by
  unfold set_shortbus_digimax_base
  simp

/-- Claim C6: under the echo mixer (read returns the last value
stored at that global address), a device write of byte `v` to local
channel `c ∈ {0,1,2,3}` followed by a device read of `c` returns
`v`. -/
theorem shortbus_digimax_write_read_round_trip (offset : Nat)
    (st : SoundState) (c v : Nat) (hc : c ≤ 3) (hv : v < 256) :
    (shortbus_digimax_sound_read offset
        (shortbus_digimax_sound_store offset st c v).1 c).1 = v := by
  simp [shortbus_digimax_sound_read, shortbus_digimax_sound_store,
    sound_read, sound_store, updFn]

/-- Witness for claim C6 at offset 32, channel 2, value 171. -/
theorem shortbus_digimax_write_read_round_trip_witness :
    2 ≤ 3 ∧ 171 < 256
    ∧ (shortbus_digimax_sound_read 32
        (shortbus_digimax_sound_store 32 zeroSound 2 171).1 2).1 = 171 :=
  ⟨by decide, by decide,
   shortbus_digimax_write_read_round_trip 32 zeroSound 2 171 (by decide)
     (by decide)⟩

/-- Claim C7: the device write stores the byte into local slot `a` and
issues exactly one mixer store at global address `offset ||| a` with
context 0; the device read returns exactly the mixer's read of global
address `offset ||| a` with context 0.  (`offset < 65536` reflects the
`WORD` type of `digimax_sound_chip_offset`, making the `(WORD)` cast
the identity.) -/
theorem shortbus_digimax_sound_dispatch (offset : Nat) (st : SoundState)
    (a v : Nat) (ha : a ≤ 3) (hoff : offset < 65536) :
    (shortbus_digimax_sound_store offset st a v).1.digimax_sound_data a = v
    ∧ (shortbus_digimax_sound_store offset st a v).2
        = MixerCall.store (offset ||| a) v 0
    ∧ (shortbus_digimax_sound_store offset st a v).1.mixer
        = sound_store st.mixer (offset ||| a) v 0
    ∧ (shortbus_digimax_sound_read offset st a).1
        = sound_read st.mixer (offset ||| a) 0
    ∧ (shortbus_digimax_sound_read offset st a).2
        = MixerCall.read (offset ||| a) 0 := by
  have hlt : offset ||| a < 65536 := lor_lt_65536 hoff (by omega)
  have hmod : (offset ||| a) % 65536 = offset ||| a := Nat.mod_eq_of_lt hlt
  simp [shortbus_digimax_sound_store, shortbus_digimax_sound_read,
    sound_read, hmod, updFn]

/-- Witness for claim C7 at offset 32, local address 1, value 200. -/
theorem shortbus_digimax_sound_dispatch_witness :
    1 ≤ 3 ∧ 32 < 65536
    ∧ (shortbus_digimax_sound_store 32 zeroSound 1 200).2
        = MixerCall.store 33 200 0
    ∧ (shortbus_digimax_sound_read 32 zeroSound 1).2
        = MixerCall.read 33 0 := by
  have h := shortbus_digimax_sound_dispatch 32 zeroSound 1 200 (by decide)
    (by decide)
  exact ⟨by decide, by decide, h.2.1, h.2.2.2.2⟩

/-- Claim C8: when the host interface is inactive, the expansion
enable/disable setter returns 0, only records the requested value in
`expansion_active`, emits no bus event, and leaves the chip flag, the
handle, the base address, the window and `host_active` untouched. -/
theorem shortbus_digimax_expansion_toggle_host_inactive (v : Int)
    (s : DigimaxState) (h : s.host_active = false) :
    set_shortbus_digimax_enabled v s
      = (0, { s with expansion_active := v != 0 }, []) := by
  unfold set_shortbus_digimax_enabled
  simp [h]

/-- Witness for claim C8: enabling the expansion in the startup state
(host inactive) only sets `expansion_active`. -/
theorem shortbus_digimax_expansion_toggle_witness :
    startupState.host_active = false
    ∧ set_shortbus_digimax_enabled 1 startupState
        = (0, { startupState with expansion_active := (1 : Int) != 0 },
           []) :=
  ⟨by decide,
   shortbus_digimax_expansion_toggle_host_inactive 1 startupState
     (by decide)⟩

/-- Claim C9: from a registered good state, host deactivation releases
the window, disables the chip, clears the handle and `host_active`,
and leaves `expansion_active` unchanged (still true); a subsequent
host activation alone then re-claims the window (chip re-enabled,
handle live) without touching the expansion flag. -/
theorem shortbus_digimax_host_deactivate_keeps_expansion
    (s : DigimaxState) (hg : GoodState s) (hc : s.chip_enabled = true) :
    (shortbus_digimax_unregister s).2
        = [BusEvent.release s.device.start_address s.device.end_address]
    ∧ (shortbus_digimax_unregister s).1.host_active = false
    ∧ (shortbus_digimax_unregister s).1.chip_enabled = false
    ∧ (shortbus_digimax_unregister s).1.list_item = none
    ∧ (shortbus_digimax_unregister s).1.expansion_active = true
    ∧ shortbus_digimax_register (shortbus_digimax_unregister s).1
        = ({ (shortbus_digimax_unregister s).1 with
              host_active := true, chip_enabled := true,
              list_item := some s.device },
           [BusEvent.claim s.device.start_address
              s.device.end_address]) := by
  obtain ⟨ha, he, ad, dev, hcf, li⟩ := s
  unfold GoodState at hg
  obtain ⟨h1, h2, h3, h4, h5, h6⟩ := hg
  simp only at hc
  subst hc
  cases li <;> cases ha <;> cases he <;>
    simp_all [shortbus_digimax_unregister, shortbus_digimax_register]

/-- Witness for claim C9 at the concrete registered state `regState`. -/
theorem shortbus_digimax_host_deactivate_witness :
    GoodState regState ∧ regState.chip_enabled = true
    ∧ (shortbus_digimax_unregister regState).1.expansion_active = true
    ∧ (shortbus_digimax_unregister regState).2
        = [BusEvent.release 0xde40 0xde43] := by
  have h := shortbus_digimax_host_deactivate_keeps_expansion regState
    (by decide) (by decide)
  exact ⟨by decide, by decide, h.2.2.2.2.1, by
    rw [h.1]; decide⟩

/-- Claim C10: the registration handle is live iff the mixer
chip-enabled flag is set — (a) every single operation preserves this
equivalence from any state satisfying it, and (b) it holds after any
operation sequence from the startup state. -/
theorem shortbus_digimax_handle_iff_chip :
    (∀ (s : DigimaxState) (op : Op),
        s.list_item.isSome = s.chip_enabled →
        (applyOp op s).1.list_item.isSome = (applyOp op s).1.chip_enabled)
    ∧ ∀ ops : List Op,
        (run ops startupState).1.list_item.isSome
          = (run ops startupState).1.chip_enabled := by
  constructor
  · intro s op h
    exact applyOp_handle op s h
  · intro ops
    exact ((run_step ops startupState startup_good).1).1

/-- Witness for claim C10: the equivalence holds in the startup state
and is preserved by a host registration there. -/
theorem shortbus_digimax_handle_iff_chip_witness :
    startupState.list_item.isSome = startupState.chip_enabled
    ∧ (applyOp Op.hostRegister startupState).1.list_item.isSome
        = (applyOp Op.hostRegister startupState).1.chip_enabled :=
  ⟨by decide,
   shortbus_digimax_handle_iff_chip.1 startupState Op.hostRegister
     (by decide)⟩
